import Mathlib

/-!
Shallow embedding of the QR-menu platform's core:
record store (`data.py`), analytics event store (`analytics.py`),
and the menu-item update endpoint coercion (`app.py`).

Python values are modelled by `PyVal` (JSON-like data plus booleans and
`None`); Python `float` is modelled exactly by `PyFloat`, a fraction of
an `Int` numerator over a positive `Nat` denominator (the claims under
verification only exercise decimal literals, order comparisons and
adding 1, where exact fractions agree with IEEE doubles). File I/O
(`load_data`/`save_data`) is threaded as explicit state: each store
operation takes the current slug-to-record mapping and returns the
possibly-updated mapping. Fallible code returns `Except PyErr`
mirroring which Python statements can raise and which exception classes
each `except` clause catches.
-/

/-- Python exception classes that the modelled code can raise or catch. -/
inductive PyErr where
  | typeError
  | valueError
  | keyError
  | attributeError
  deriving DecidableEq, Repr

/-- An exact Python float: the fraction `num / den`. Every operation
below keeps `den` positive; fractions are not reduced (no claim under
verification compares floats produced by different expressions). -/
structure PyFloat where
  num : Int
  den : Nat
  deriving DecidableEq, Repr

/-- The float embedding of an integer. -/
def pfOfInt (n : Int) : PyFloat := ⟨n, 1⟩

/-- Python `<` on floats: cross-multiplied comparison (denominators are
positive). -/
def pfLt (a b : PyFloat) : Bool :=
  a.num * (b.den : Int) < b.num * (a.den : Int)

/-- Python `<=` on floats. -/
def pfLe (a b : PyFloat) : Bool :=
  a.num * (b.den : Int) ≤ b.num * (a.den : Int)

/-- Python `v + 1` on a float. -/
def pfIncr (f : PyFloat) : PyFloat := ⟨f.num + (f.den : Int), f.den⟩

/-- Round `x` to the nearest integer, ties to even (Python `round`
semantics over the exact-fraction float model). -/
def pfRoundHalfEven (x : PyFloat) : Int :=
  let f := Int.fdiv x.num (x.den : Int)
  let rnum := x.num - f * (x.den : Int)
  if 2 * rnum < (x.den : Int) then f
  else if (x.den : Int) < 2 * rnum then f + 1
  else if f % 2 == 0 then f else f + 1

/-- Python `round(x, 2)` over the exact-fraction float model. -/
def pfRound2 (x : PyFloat) : PyFloat :=
  ⟨pfRoundHalfEven ⟨x.num * 100, x.den⟩, 100⟩

/-- A Python value as it appears in the record store: `None`, booleans,
ints, floats, strings, lists and string-keyed dicts (insertion-ordered
association lists, Python 3.7+). -/
inductive PyVal where
  | none
  | bool (b : Bool)
  | int (n : Int)
  | float (f : PyFloat)
  | str (s : String)
  | list (xs : List PyVal)
  | dict (kvs : List (String × PyVal))
  deriving BEq, Repr

/-- `d.get(k)` on a Python dict: first (and only, keys are unique) binding. -/
def dget (kvs : List (String × PyVal)) (k : String) : Option PyVal :=
  match kvs.find? (fun p => p.1 == k) with
  | Option.none => Option.none
  | Option.some p => Option.some p.2

/-- `d.get(k, default)` on a Python dict. -/
def dgetD (kvs : List (String × PyVal)) (k : String) (dflt : PyVal) : PyVal :=
  (dget kvs k).getD dflt

/-- `d[k] = v` on a Python dict: update in place if the key exists
(keeping its position), otherwise append at the end (insertion order). -/
def dset (kvs : List (String × PyVal)) (k : String) (v : PyVal) :
    List (String × PyVal) :=
  match kvs with
  | [] => [(k, v)]
  | (k', v') :: rest =>
      if k' == k then (k, v) :: rest else (k', v') :: dset rest k v

/-- `k in d` on a Python dict. -/
def dhas (kvs : List (String × PyVal)) (k : String) : Bool :=
  kvs.any (fun p => p.1 == k)

/-- `d.update(other)`: fold the other dict's bindings into `d` in order. -/
def pyUpdate (kvs : List (String × PyVal)) (other : List (String × PyVal)) :
    List (String × PyVal) :=
  match other with
  | [] => kvs
  | (k, v) :: rest => pyUpdate (dset kvs k v) rest

/-- Python truthiness (`bool(v)` / `if v:`). -/
def pyTruthy : PyVal → Bool
  | PyVal.none => false
  | PyVal.bool b => b
  | PyVal.int n => n != 0
  | PyVal.float f => f.num != 0
  | PyVal.str s => s != ""
  | PyVal.list xs => !xs.isEmpty
  | PyVal.dict kvs => !kvs.isEmpty

/-- Python `s.strip()` over ASCII whitespace. -/
def pyStrip (s : String) : String :=
  String.mk
    (((s.toList.dropWhile Char.isWhitespace).reverse.dropWhile
        Char.isWhitespace).reverse)

/-- Python `s.lower()` over ASCII. -/
def pyLower (s : String) : String :=
  String.mk (s.toList.map Char.toLower)

/-- `sub` occurs as a contiguous run inside the list. -/
def hasSubAux (sub : List Char) : List Char → Bool
  | [] => sub.isEmpty
  | c :: cs => List.isPrefixOf sub (c :: cs) || hasSubAux sub cs

/-- Python `sub in s` on strings: substring test. -/
def strHasSub (s sub : String) : Bool :=
  hasSubAux sub.toList s.toList

/-- Numeric value of a list of decimal digit characters. -/
def digitsToNat (l : List Char) : Nat :=
  l.foldl (fun acc c => acc * 10 + (c.toNat - '0'.toNat)) 0

/-- All characters are decimal digits and there is at least one. -/
def allDigits (l : List Char) : Bool :=
  !l.isEmpty && l.all Char.isDigit

/-- Parse the decimal-literal subset of Python `float(str)` after
stripping: optional sign, then `digits`, `digits.digits`, `digits.`,
or `.digits`, with an optional `e`/`E` signed-integer exponent.
Special forms (`inf`, `nan`, underscore separators) are outside the
modelled scope; no claim under verification exercises them. -/
def parseDecCore (l : List Char) : Option PyFloat :=
  let (neg, body) :=
    match l with
    | '+' :: r => (false, r)
    | '-' :: r => (true, r)
    | r => (false, r)
  let (mant, expPart) :=
    match body.splitOn 'e', body.splitOn 'E' with
    | [m, e], _ => (m, Option.some e)
    | _, [m, e] => (m, Option.some e)
    | _, _ => (body, Option.none)
  let mval : Option PyFloat :=
    match mant.splitOn '.' with
    | [ip] =>
        if allDigits ip then Option.some ⟨(digitsToNat ip : Int), 1⟩
        else Option.none
    | [ip, fp] =>
        if (allDigits ip || ip.isEmpty) && (allDigits fp || fp.isEmpty)
            && !(ip.isEmpty && fp.isEmpty) then
          Option.some
            ⟨(digitsToNat ip : Int) * (10 : Int) ^ fp.length + (digitsToNat fp : Int),
             10 ^ fp.length⟩
        else Option.none
    | _ => Option.none
  let scaled : Option PyFloat :=
    match expPart with
    | Option.none => mval
    | Option.some e =>
        match e with
        | '+' :: d =>
            if allDigits d then
              mval.map (fun m => ⟨m.num * (10 : Int) ^ digitsToNat d, m.den⟩)
            else Option.none
        | '-' :: d =>
            if allDigits d then
              mval.map (fun m => ⟨m.num, m.den * 10 ^ digitsToNat d⟩)
            else Option.none
        | d =>
            if allDigits d then
              mval.map (fun m => ⟨m.num * (10 : Int) ^ digitsToNat d, m.den⟩)
            else Option.none
  scaled.map (fun m => if neg then ⟨-m.num, m.den⟩ else m)

/-- Python `float(s)` for a string: strip whitespace, then parse. -/
def parsePyFloatStr (s : String) : Option PyFloat :=
  parseDecCore (pyStrip s).toList

/-- Python `float(v)`: numbers and booleans convert, strings parse as
decimal literals (else `ValueError`), everything else is a `TypeError`. -/
def pyFloat : PyVal → Except PyErr PyFloat
  | PyVal.bool b => Except.ok ⟨if b then 1 else 0, 1⟩
  | PyVal.int n => Except.ok ⟨n, 1⟩
  | PyVal.float f => Except.ok f
  | PyVal.str s =>
      match parsePyFloatStr s with
      | Option.some f => Except.ok f
      | Option.none => Except.error PyErr.valueError
  | _ => Except.error PyErr.typeError

/-- Python `str(v)`. Strings are themselves; ints, booleans and `None`
use their reprs. The float/list/dict reprs are schematic placeholders:
no claim under verification depends on their exact text. -/
def pyStr : PyVal → String
  | PyVal.none => "None"
  | PyVal.bool b => if b then "True" else "False"
  | PyVal.int n => toString n
  | PyVal.float f => toString f.num ++ "/" ++ toString f.den
  | PyVal.str s => s
  | PyVal.list _ => "[...]"
  | PyVal.dict _ => "{...}"

/-- Python `str.title()` over ASCII: the first letter of every run of
letters is uppercased, subsequent letters lowercased; non-letters pass
through and end the run. -/
def titleAux : Bool → List Char → List Char
  | _, [] => []
  | prev, c :: cs =>
      if c.isAlpha then
        (if prev then c.toLower else c.toUpper) :: titleAux true cs
      else
        c :: titleAux false cs

/-- Python `s.title()`. -/
def pyTitle (s : String) : String :=
  String.mk (titleAux false s.toList)

/-- One character of the slug alphabet `[a-z0-9-]`. -/
def slugChar (c : Char) : Bool :=
  ('a' ≤ c && c ≤ 'z') || c.isDigit || c == '-'

/-- `re.match(r'^[a-z0-9-]+$', s)`: a nonempty run of slug characters;
Python's `$` also matches just before a single trailing newline. -/
def validSlug (s : String) : Bool :=
  let l := s.toList
  let core := fun (m : List Char) => !m.isEmpty && m.all slugChar
  core l || (l.getLast? == Option.some '\n' && core l.dropLast)

/-- The slug-to-record mapping held in `data.json`. -/
abbrev Store := List (String × PyVal)

/-- Python `len(v)` for sized values; `TypeError` otherwise. -/
def pyLen : PyVal → Except PyErr Nat
  | PyVal.str s => Except.ok s.length
  | PyVal.list xs => Except.ok xs.length
  | PyVal.dict kvs => Except.ok kvs.length
  | _ => Except.error PyErr.typeError

/-- Python `v[k]` for a string key `k`: dict lookup (`KeyError` when
absent); strings and lists require integer indices (`TypeError`). -/
def pySubscriptStr (v : PyVal) (k : String) : Except PyErr PyVal :=
  match v with
  | PyVal.dict kvs =>
      match dget kvs k with
      | Option.some x => Except.ok x
      | Option.none => Except.error PyErr.keyError
  | _ => Except.error PyErr.typeError

/-- Python `k in v` for a string `k`: key test on dicts, membership on
lists, substring test on strings; `TypeError` otherwise. -/
def pyInOp (k : String) (v : PyVal) : Except PyErr Bool :=
  match v with
  | PyVal.dict kvs => Except.ok (dhas kvs k)
  | PyVal.list xs => Except.ok (xs.any (fun x => x == PyVal.str k))
  | PyVal.str s => Except.ok (strHasSub s k)
  | _ => Except.error PyErr.typeError

/-- Python `v + 1` (the `+= 1` statements): ints, floats and booleans
support it, everything else raises `TypeError`. -/
def pyIncr : PyVal → Except PyErr PyVal
  | PyVal.int n => Except.ok (PyVal.int (n + 1))
  | PyVal.float f => Except.ok (PyVal.float (pfIncr f))
  | PyVal.bool b => Except.ok (PyVal.int ((if b then 1 else 0) + 1))
  | _ => Except.error PyErr.typeError

/-- State of the persisted `data.json` as seen by `load_data`: absent,
present and parseable (with the parsed mapping), or present but
malformed so that `json.load` raises `JSONDecodeError`. -/
inductive FileState where
  | absent
  | wellFormed (d : Store)
  | malformed

/-- Modelled from the Python standard library: the `os` module defines
no attribute `time` (the clock lives in the separate `time` module), so
evaluating `os.time` raises `AttributeError`. -/
def os_time : Except PyErr PyFloat := Except.error PyErr.attributeError

/-- `load_data()` from data.py: missing file yields `{}`; a parseable
file yields its contents; on `JSONDecodeError` the handler computes the
backup name `DATA_FILE + '.corrupt.' + str(int(os.time()))`, whose
`os.time` access raises before any file is moved. -/
def load_data : FileState → Except PyErr Store
  | FileState.absent => Except.ok []
  | FileState.wellFormed d => Except.ok d
  | FileState.malformed =>
      match os_time with
      | Except.error e => Except.error e
      -- unreachable while `os.time` raises: the intended backup-and-reset
      | Except.ok _t => Except.ok []

/-- `get_restaurant(slug)`: a deep copy of one record (copying is the
identity on pure values). -/
def get_restaurant (data : Store) (slug : String) : Option PyVal :=
  dget data slug

/-- `update_restaurant(slug, new_restaurant)`: slug-pattern check only,
then wholesale replacement (or insertion) of the record. -/
def update_restaurant (data : Store) (slug : String) (new_restaurant : PyVal) :
    Bool × Store :=
  if validSlug slug then (true, dset data slug new_restaurant) else (false, data)

/-- The allow-list of updatable menu-item fields from data.py. -/
def VALID_ITEM_FIELDS : List String :=
  ["name", "name_ur", "price", "image_url", "category",
   "is_available", "is_chefs_special"]

/-- The field-validation loop of `update_menu_item`: unknown keys are
skipped; `price` must convert by `float` into `[0, 999999]` (else the
whole patch fails, `Option.none`); booleans coerce by truthiness;
`category` is stripped then title-cased; other fields are stripped
strings, `''` for falsy input. -/
def computeValidFields :
    List (String × PyVal) → List (String × PyVal) →
    Option (List (String × PyVal))
  | [], acc => Option.some acc
  | (k, v) :: rest, acc =>
      if !(VALID_ITEM_FIELDS.contains k) then computeValidFields rest acc
      else if k == "price" then
        match pyFloat v with
        | Except.error _ => Option.none
        | Except.ok price =>
            if pfLt price (pfOfInt 0) || pfLt (pfOfInt 999999) price then
              Option.none
            else
              computeValidFields rest (dset acc k (PyVal.float (pfRound2 price)))
      else if k == "is_available" || k == "is_chefs_special" then
        computeValidFields rest (dset acc k (PyVal.bool (pyTruthy v)))
      else if k == "category" then
        computeValidFields rest (dset acc k (PyVal.str (pyTitle (pyStrip (pyStr v)))))
      else
        computeValidFields rest
          (dset acc k (PyVal.str (if pyTruthy v then pyStrip (pyStr v) else "")))

/-- The `try` block of `update_menu_item`: bounds-check the index
against `len(rest['menu'])`, then `rest['menu'][idx].update(valid_fields)`
and write the store back. Raises faithfully when the record's `menu`
value is not a list of dicts. -/
def updateTryBlock (data : Store) (slug : String) (rkvs : List (String × PyVal))
    (idx : Int) (vf : List (String × PyVal)) : Except PyErr (Bool × Store) :=
  match pySubscriptStr (PyVal.dict rkvs) "menu" with
  | Except.error e => Except.error e
  | Except.ok menuv =>
  match pyLen menuv with
  | Except.error e => Except.error e
  | Except.ok n =>
  if idx < 0 ∨ (n : Int) ≤ idx then Except.ok (false, data)
  else
    match menuv with
    | PyVal.list xs =>
        match xs.get? idx.toNat with
        | Option.none => Except.error PyErr.typeError  -- unreachable: bounds hold
        | Option.some item =>
            match item with
            | PyVal.dict ikvs =>
                let newItem := PyVal.dict (pyUpdate ikvs vf)
                let newRest :=
                  PyVal.dict (dset rkvs "menu" (PyVal.list (xs.set idx.toNat newItem)))
                Except.ok (true, dset data slug newRest)
            | _ => Except.error PyErr.attributeError  -- non-dict has no .update
    | PyVal.str _ => Except.error PyErr.attributeError  -- a char has no .update
    | PyVal.dict _ => Except.error PyErr.keyError  -- integer key into a dict
    | _ => Except.error PyErr.typeError

/-- `update_menu_item(slug, index, fields)` from data.py. The caller's
`index` is already an `int` (the Flask route converter), so `int(index)`
succeeds; `ValueError`/`TypeError` raised inside the `try` block are
caught and reported as `False`, other exceptions propagate. -/
def update_menu_item (data : Store) (slug : String) (index : Int)
    (fields : List (String × PyVal)) : Except PyErr (Bool × Store) :=
  match computeValidFields fields [] with
  | Option.none => Except.ok (false, data)
  | Option.some vf =>
      if vf.isEmpty then Except.ok (false, data)
      else
        match dget data slug with
        | Option.none => Except.ok (false, data)
        | Option.some rest =>
            if !pyTruthy rest then Except.ok (false, data)
            else
              match pyInOp "menu" rest with
              | Except.error e => Except.error e
              | Except.ok hm =>
              if !hm then Except.ok (false, data)
              else
                match rest with
                | PyVal.dict rkvs =>
                    match updateTryBlock data slug rkvs index vf with
                    | Except.error PyErr.valueError => Except.ok (false, data)
                    | Except.error PyErr.typeError => Except.ok (false, data)
                    | Except.error e => Except.error e
                    | Except.ok r => Except.ok r
                | _ =>
                    -- `rest['menu']` on a non-dict raises TypeError, caught
                    Except.ok (false, data)

/-- The theme enum from data.py. -/
def VALID_THEMES : List String := ["default", "traditional"]

/-- Python iteration over the value of `restaurant.get('menu', [])`:
lists yield their elements, strings their characters, dicts their keys;
other values are not iterable. -/
def iterElems : PyVal → Except PyErr (List PyVal)
  | PyVal.list xs => Except.ok xs
  | PyVal.str s => Except.ok (s.toList.map (fun c => PyVal.str (String.mk [c])))
  | PyVal.dict kvs => Except.ok (kvs.map (fun p => PyVal.str p.1))
  | _ => Except.error PyErr.typeError

/-- The item literal appended by `create_restaurant` for one kept draft
item: stripped strings, `float` price (may raise), stripped title-cased
category with `'Main Course'` fallback, truthiness booleans with
defaults. -/
def sanitizeMenuItem (ikvs : List (String × PyVal)) : Except PyErr PyVal :=
  match pyFloat (dgetD ikvs "price" (PyVal.int 0)) with
  | Except.error e => Except.error e
  | Except.ok price =>
  let cat := pyTitle (pyStrip (pyStr (dgetD ikvs "category" (PyVal.str "Main Course"))))
  Except.ok (PyVal.dict [
    ("name", PyVal.str (pyStrip (pyStr (dgetD ikvs "name" (PyVal.str ""))))),
    ("name_ur", PyVal.str (pyStrip (pyStr (dgetD ikvs "name_ur" (PyVal.str ""))))),
    ("price", PyVal.float price),
    ("image_url", PyVal.str (pyStrip (pyStr (dgetD ikvs "image_url" (PyVal.str ""))))),
    ("category", PyVal.str (if cat == "" then "Main Course" else cat)),
    ("is_available", PyVal.bool (pyTruthy (dgetD ikvs "is_available" (PyVal.bool true)))),
    ("is_chefs_special", PyVal.bool (pyTruthy (dgetD ikvs "is_chefs_special" (PyVal.bool false))))])

/-- A draft menu entry survives `create_restaurant`'s filter exactly
when it is a dict containing a `name` key. -/
def keepEntry : PyVal → Bool
  | PyVal.dict ikvs => dhas ikvs "name"
  | _ => false

/-- The menu-building loop of `create_restaurant`: entries that are not
dicts or lack `name` are skipped, the rest are sanitized in order. -/
def buildMenu : List PyVal → Except PyErr (List PyVal)
  | [] => Except.ok []
  | v :: rest =>
      match v with
      | PyVal.dict ikvs =>
          if dhas ikvs "name" then
            match sanitizeMenuItem ikvs with
            | Except.error e => Except.error e
            | Except.ok item =>
                match buildMenu rest with
                | Except.error e => Except.error e
                | Except.ok tail => Except.ok (item :: tail)
          else buildMenu rest
      | _ => buildMenu rest

/-- `create_restaurant(slug, restaurant, default_theme)` from data.py.
The caller passes the draft as a dict (`restaurant : List (String × PyVal)`,
as every caller in the repository does) and `now` stands for the
`time.time()` creation timestamp. -/
def create_restaurant (data : Store) (slug : String)
    (restaurant : List (String × PyVal)) (default_theme : String) (now : PyFloat) :
    Except PyErr (Bool × Store) :=
  if !validSlug slug then Except.ok (false, data)
  else
    let dt := if VALID_THEMES.contains default_theme then default_theme else "default"
    if dhas data slug then Except.ok (false, data)
    else
      let nm := pyStrip (pyStr (dgetD restaurant "name" (PyVal.str slug)))
      match iterElems (dgetD restaurant "menu" (PyVal.list [])) with
      | Except.error e => Except.error e
      | Except.ok elems =>
      match buildMenu elems with
      | Except.error e => Except.error e
      | Except.ok items =>
      let rest := PyVal.dict [
        ("name", PyVal.str (if nm == "" then slug else nm)),
        ("name_ur", PyVal.str (pyStrip (pyStr (dgetD restaurant "name_ur" (PyVal.str ""))))),
        ("whatsapp", PyVal.str (pyStrip (pyStr (dgetD restaurant "whatsapp" (PyVal.str ""))))),
        ("menu", PyVal.list items),
        ("theme", PyVal.str dt),
        ("created_at", PyVal.float now)]
      Except.ok (true, dset data slug rest)

/-- `get_analytics(slug)` from data.py: reads the keys `total_clicks`
and `item_clicks` from the record, with defaults `0` and `{}`. -/
def get_analytics (data : Store) (slug : String) : Except PyErr PyVal :=
  let rest := (dget data slug).getD (PyVal.dict [])
  match rest with
  | PyVal.dict rkvs =>
      Except.ok (PyVal.dict [
        ("total_clicks", dgetD rkvs "total_clicks" (PyVal.int 0)),
        ("item_clicks", dgetD rkvs "item_clicks" (PyVal.dict []))])
  | _ => Except.error PyErr.attributeError

/-- `track_click(slug, item_index)` from data.py: initializes and bumps
the counters nested under the record's `analytics` key. -/
def track_click (data : Store) (slug : String) (item_index : Option PyVal) :
    Except PyErr (Bool × Store) :=
  match dget data slug with
  | Option.none => Except.ok (false, data)
  | Option.some rest =>
      if !pyTruthy rest then Except.ok (false, data)
      else
        match pyInOp "analytics" rest with
        | Except.error e => Except.error e
        | Except.ok hasA =>
        match rest with
        | PyVal.dict rkvs0 =>
            let rkvs :=
              if hasA then rkvs0
              else dset rkvs0 "analytics"
                (PyVal.dict [("total", PyVal.int 0), ("items", PyVal.dict [])])
            match dget rkvs "analytics" with
            | Option.none => Except.error PyErr.keyError
            | Option.some av =>
                match av with
                | PyVal.dict akvs =>
                    match dget akvs "total" with
                    | Option.none => Except.error PyErr.keyError
                    | Option.some tv =>
                    match pyIncr tv with
                    | Except.error e => Except.error e
                    | Except.ok tv1 =>
                    let akvs1 := dset akvs "total" tv1
                    match item_index with
                    | Option.none =>
                        let rest1 := PyVal.dict (dset rkvs "analytics" (PyVal.dict akvs1))
                        Except.ok (true, dset data slug rest1)
                    | Option.some iv =>
                        let idx := pyStr iv
                        match dget akvs1 "items" with
                        | Option.none => Except.error PyErr.keyError
                        | Option.some itemsv =>
                        match itemsv with
                        | PyVal.dict im =>
                            match pyIncr (dgetD im idx (PyVal.int 0)) with
                            | Except.error e => Except.error e
                            | Except.ok c1 =>
                            let akvs2 := dset akvs1 "items" (PyVal.dict (dset im idx c1))
                            let rest1 := PyVal.dict (dset rkvs "analytics" (PyVal.dict akvs2))
                            Except.ok (true, dset data slug rest1)
                        | _ => Except.error PyErr.typeError
                | _ =>
                    -- `rest['analytics']['total']` on a non-dict value
                    Except.error PyErr.typeError
        | _ =>
            -- item assignment / item access on a non-dict record
            Except.error PyErr.typeError

/-- The allow-list of `api_update_item` in app.py. -/
def ALLOWED_UPDATE_FIELDS : List String :=
  ["price", "is_available", "is_chefs_special", "name", "name_ur",
   "image_url", "category"]

/-- The request preprocessing of `api_update_item` in app.py: keep only
allowed keys, then replace a string-valued `is_available` by the boolean
`val.lower() in ("1", "true", "yes")`. -/
def api_coerce_fields (payload : List (String × PyVal)) :
    List (String × PyVal) :=
  let fields := payload.filter (fun p => ALLOWED_UPDATE_FIELDS.contains p.1)
  match dget fields "is_available" with
  | Option.some (PyVal.str s) =>
      dset fields "is_available"
        (PyVal.bool (["1", "true", "yes"].contains (pyLower s)))
  | _ => fields

/-- The `/api/<slug>/item/<int:index>/update` endpoint body: coerce the
payload, then call `update_menu_item`. -/
def api_update_item (data : Store) (slug : String) (index : Int)
    (payload : List (String × PyVal)) : Except PyErr (Bool × Store) :=
  update_menu_item data slug index (api_coerce_fields payload)

namespace Analytics

/-- A UTC timestamp as `datetime` components; comparisons are
lexicographic, as for Python `datetime`. -/
structure DateTime where
  year : Nat
  month : Nat
  day : Nat
  hour : Nat
  minute : Nat
  second : Nat
  deriving DecidableEq, Repr

/-- Python `datetime` strict order (lexicographic on components). -/
def dtLt (a b : DateTime) : Bool :=
  a.year < b.year || (a.year == b.year &&
    (a.month < b.month || (a.month == b.month &&
      (a.day < b.day || (a.day == b.day &&
        (a.hour < b.hour || (a.hour == b.hour &&
          (a.minute < b.minute || (a.minute == b.minute &&
            a.second < b.second)))))))))

/-- Python `datetime` non-strict order. -/
def dtLe (a b : DateTime) : Bool :=
  dtLt a b || a == b

/-- A row of the `events` table: slug, event type, nullable item index,
insert timestamp. -/
structure Event where
  slug : String
  type : String
  item_index : Option Int
  ts : DateTime
  deriving DecidableEq, Repr

/-- `datetime(year, month, 1)`: the first instant of a month. -/
def monthStart (year month : Nat) : DateTime :=
  ⟨year, month, 1, 0, 0, 0⟩

/-- The exclusive window end of `get_monthly_summary`: January 1 of the
next year for December, else the first of the next month. -/
def monthEnd (year month : Nat) : DateTime :=
  if month == 12 then ⟨year + 1, 1, 1, 0, 0, 0⟩
  else ⟨year, month + 1, 1, 0, 0, 0⟩

/-- The SQL row filter `slug=:slug AND type=:ty AND ts>=:start AND
ts<:end` shared by the three queries of `get_monthly_summary`. -/
def inWindow (slug ty : String) (s e : DateTime) (ev : Event) : Bool :=
  ev.slug == slug && ev.type == ty && dtLe s ev.ts && dtLt ev.ts e

/-- Distinct `item_index` values of a row list in first-occurrence
order (the grouping keys of `GROUP BY item_index`). -/
def groupKeys (evs : List Event) : List (Option Int) :=
  evs.foldl
    (fun acc e => if acc.contains e.item_index then acc else acc ++ [e.item_index]) []

/-- `GROUP BY item_index` with `COUNT(*)`: one `(key, count)` pair per
distinct index, keys in first-occurrence order. -/
def groupCounts (evs : List Event) : List (Option Int × Nat) :=
  (groupKeys evs).map (fun k => (k, evs.countP (fun e => e.item_index == k)))

/-- Stable insertion step for `ORDER BY cnt DESC`: a row moves ahead of
another only when its count is strictly larger. -/
def insertDesc (p : Option Int × Nat) :
    List (Option Int × Nat) → List (Option Int × Nat)
  | [] => [p]
  | q :: r => if q.2 < p.2 then p :: q :: r else q :: insertDesc p r

/-- Stable sort by count, descending (`ORDER BY cnt DESC`). -/
def sortByCountDesc (l : List (Option Int × Nat)) : List (Option Int × Nat) :=
  l.foldr insertDesc []

/-- The result record of `get_monthly_summary`. -/
structure Summary where
  year : Nat
  month : Nat
  scans : Nat
  clicks : Nat
  top_items : List (Option Int × Nat)
  deriving DecidableEq, Repr

/-- `get_monthly_summary(slug, year, month)` from analytics.py over the
event table `evs`: scan count and click count in the half-open window
`[monthStart, monthEnd)`, plus the top 10 click groups by count. -/
def get_monthly_summary (evs : List Event) (slug : String)
    (year month : Nat) : Summary :=
  let s := monthStart year month
  let e := monthEnd year month
  let scans := evs.countP (inWindow slug "scan" s e)
  let clickRows := evs.filter (inWindow slug "click" s e)
  { year := year
    month := month
    scans := scans
    clicks := clickRows.length
    top_items := (sortByCountDesc (groupCounts clickRows)).take 10 }

/-- `get_top_items(slug, since_days)` from analytics.py: the caller's
`since` parameter stands for `datetime.utcnow() - timedelta(days=since_days)`
(calendar arithmetic happens outside the modelled query). Clicks with
`ts >= since` are grouped by index and the top 20 groups returned. -/
def get_top_items (evs : List Event) (slug : String) (since : DateTime) :
    List (Option Int × Nat) :=
  let rows := evs.filter
    (fun ev => ev.slug == slug && ev.type == "click" && dtLe since ev.ts)
  (sortByCountDesc (groupCounts rows)).take 20

end Analytics


/-! ### Dictionary lemmas -/

/-- The key list of a dict. -/
def dkeys (kvs : List (String × PyVal)) : List String :=
  kvs.map Prod.fst

theorem dget_cons (rest : List (String × PyVal)) (k₁ k : String) (v₁ : PyVal) :
    dget ((k₁, v₁) :: rest) k =
      if k₁ = k then Option.some v₁ else dget rest k := by
  by_cases h : k₁ = k
  · subst h
    simp [dget, List.find?]
  · have hb : ((k₁, v₁).1 == k) = false := by simpa using h
    simp [dget, List.find?, hb, h]

theorem dset_cons (rest : List (String × PyVal)) (k₁ k : String) (v₁ v : PyVal) :
    dset ((k₁, v₁) :: rest) k v =
      if k₁ = k then (k, v) :: rest else (k₁, v₁) :: dset rest k v := by
  by_cases h : k₁ = k
  · subst h
    simp [dset]
  · simp [dset, h]

theorem dhas_cons (rest : List (String × PyVal)) (k₁ k : String) (v₁ : PyVal) :
    dhas ((k₁, v₁) :: rest) k = (k₁ == k || dhas rest k) := by
  simp [dhas]

theorem dget_dset_self (d : List (String × PyVal)) (k : String) (v : PyVal) :
    dget (dset d k v) k = Option.some v := by
  induction d with
  | nil => simp [dset, dget, List.find?]
  | cons p rest ih =>
      obtain ⟨k', v'⟩ := p
      rw [dset_cons]
      by_cases h : k' = k
      · simp [h, dget_cons]
      · simp only [h, if_false]
        rw [dget_cons]
        simp [h, ih]

theorem dget_dset_ne (d : List (String × PyVal)) (k k' : String) (v : PyVal)
    (h : k' ≠ k) : dget (dset d k v) k' = dget d k' := by
  induction d with
  | nil =>
      have hb : (k == k') = false := by
        simp only [beq_eq_false_iff_ne, ne_eq]
        exact Ne.symm h
      simp [dset, dget, List.find?, hb]
  | cons p rest ih =>
      obtain ⟨k₁, v₁⟩ := p
      rw [dset_cons]
      by_cases h1 : k₁ = k
      · subst h1
        rw [if_pos rfl, dget_cons, dget_cons, if_neg (Ne.symm h),
          if_neg (Ne.symm h)]
      · rw [if_neg h1, dget_cons, dget_cons]
        by_cases h2 : k₁ = k'
        · rw [if_pos h2, if_pos h2]
        · rw [if_neg h2, if_neg h2]
          exact ih

theorem dset_dget_eq (d : List (String × PyVal)) (k : String) (v : PyVal)
    (h : dget d k = Option.some v) : dset d k v = d := by
  induction d with
  | nil => simp [dget] at h
  | cons p rest ih =>
      obtain ⟨k₁, v₁⟩ := p
      rw [dget_cons] at h
      rw [dset_cons]
      by_cases h1 : k₁ = k
      · subst h1
        rw [if_pos rfl] at h ⊢
        simp only [Option.some.injEq] at h
        rw [h]
      · rw [if_neg h1] at h ⊢
        rw [ih h]

theorem mem_dkeys_dset (d : List (String × PyVal)) (k x : String) (v : PyVal)
    (h : x ∈ dkeys (dset d k v)) : x ∈ dkeys d ∨ x = k := by
  induction d with
  | nil => simpa [dset, dkeys] using h
  | cons p rest ih =>
      obtain ⟨k₁, v₁⟩ := p
      rw [dset_cons] at h
      by_cases h1 : k₁ = k
      · subst h1
        rw [if_pos rfl] at h
        simp only [dkeys, List.map_cons, List.mem_cons] at h ⊢
        tauto
      · rw [if_neg h1] at h
        simp only [dkeys, List.map_cons, List.mem_cons] at h ⊢
        rcases h with h | h
        · exact Or.inl (Or.inl h)
        · rcases ih h with h' | h'
          · exact Or.inl (Or.inr h')
          · exact Or.inr h'

theorem nodup_dkeys_dset (d : List (String × PyVal)) (k : String) (v : PyVal)
    (h : (dkeys d).Nodup) : (dkeys (dset d k v)).Nodup := by
  induction d with
  | nil => simp [dset, dkeys]
  | cons p rest ih =>
      obtain ⟨k₁, v₁⟩ := p
      simp only [dkeys, List.map_cons, List.nodup_cons] at h
      rw [dset_cons]
      by_cases h1 : k₁ = k
      · subst h1
        rw [if_pos rfl]
        simp only [dkeys, List.map_cons, List.nodup_cons]
        exact h
      · rw [if_neg h1]
        simp only [dkeys, List.map_cons, List.nodup_cons]
        refine ⟨fun hmem => ?_, ih h.2⟩
        rcases mem_dkeys_dset rest k k₁ v hmem with h' | h'
        · exact h.1 h'
        · exact h1 h'

theorem dget_pyUpdate_not_mem (other : List (String × PyVal)) (k : String)
    (h : k ∉ dkeys other) (d : List (String × PyVal)) :
    dget (pyUpdate d other) k = dget d k := by
  induction other generalizing d with
  | nil => simp [pyUpdate]
  | cons p rest ih =>
      obtain ⟨k₁, v₁⟩ := p
      simp only [dkeys, List.map_cons, List.mem_cons, not_or] at h
      simp only [pyUpdate]
      rw [ih (by simpa [dkeys] using h.2) (dset d k₁ v₁),
        dget_dset_ne _ _ _ _ h.1]

theorem dget_pyUpdate_mem (other : List (String × PyVal)) (k : String)
    (v : PyVal) (hnd : (dkeys other).Nodup) (h : (k, v) ∈ other)
    (d : List (String × PyVal)) :
    dget (pyUpdate d other) k = Option.some v := by
  induction other generalizing d with
  | nil => simp at h
  | cons p rest ih =>
      obtain ⟨k₁, v₁⟩ := p
      simp only [dkeys, List.map_cons, List.nodup_cons] at hnd
      rcases List.mem_cons.mp h with h' | h'
      · have hk : k = k₁ := congrArg Prod.fst h'
        have hv : v = v₁ := congrArg Prod.snd h'
        subst hk
        subst hv
        simp only [pyUpdate]
        rw [dget_pyUpdate_not_mem rest _ hnd.1, dget_dset_self]
      · simp only [pyUpdate]
        exact ih hnd.2 h' (dset d k₁ v₁)

theorem pyUpdate_self_of_dget (other d : List (String × PyVal))
    (h : ∀ p ∈ other, dget d p.1 = Option.some p.2) : pyUpdate d other = d := by
  induction other with
  | nil => rfl
  | cons p rest ih =>
      obtain ⟨k₁, v₁⟩ := p
      simp only [pyUpdate]
      rw [dset_dget_eq _ _ _ (h (k₁, v₁) (List.mem_cons_self _ _))]
      exact ih (fun q hq => h q (List.mem_cons_of_mem _ hq))

theorem dhas_of_dget_some (d : List (String × PyVal)) (k : String) (v : PyVal)
    (h : dget d k = Option.some v) : dhas d k = true := by
  induction d with
  | nil => simp [dget] at h
  | cons p rest ih =>
      obtain ⟨k₁, v₁⟩ := p
      rw [dget_cons] at h
      rw [dhas_cons]
      by_cases h1 : k₁ = k
      · simp [h1]
      · simp only [h1, if_false] at h
        simp [h1, ih h]

/-! ### Lemmas about the update path -/

theorem cvf_nodup (fields : List (String × PyVal)) :
    ∀ acc vf : List (String × PyVal), (dkeys acc).Nodup →
      computeValidFields fields acc = Option.some vf → (dkeys vf).Nodup := by
  induction fields with
  | nil =>
      intro acc vf hacc h
      simp only [computeValidFields, Option.some.injEq] at h
      exact h ▸ hacc
  | cons p rest ih =>
      intro acc vf hacc h
      obtain ⟨k, v⟩ := p
      simp only [computeValidFields] at h
      split at h
      · exact ih acc vf hacc h
      · split at h
        · split at h
          · cases h
          · split at h
            · cases h
            · exact ih _ vf (nodup_dkeys_dset _ _ _ hacc) h
        · split at h
          · exact ih _ vf (nodup_dkeys_dset _ _ _ hacc) h
          · split at h
            · exact ih _ vf (nodup_dkeys_dset _ _ _ hacc) h
            · exact ih _ vf (nodup_dkeys_dset _ _ _ hacc) h

/-- Inversion for a successful `try` block of `update_menu_item`. -/
theorem updateTryBlock_ok_true (data : Store) (slug : String)
    (rkvs : List (String × PyVal)) (idx : Int) (vf : List (String × PyVal))
    (data' : Store)
    (h : updateTryBlock data slug rkvs idx vf = Except.ok (true, data')) :
    ∃ xs ikvs,
      dget rkvs "menu" = Option.some (PyVal.list xs) ∧
      0 ≤ idx ∧ idx < (xs.length : Int) ∧
      xs.get? idx.toNat = Option.some (PyVal.dict ikvs) ∧
      data' = dset data slug (PyVal.dict (dset rkvs "menu"
        (PyVal.list (xs.set idx.toNat (PyVal.dict (pyUpdate ikvs vf)))))) := by
  simp only [updateTryBlock, pySubscriptStr] at h
  split at h
  · exact absurd h (by simp)
  case h_2 menuv heq =>
    have hmenu : dget rkvs "menu" = Option.some menuv := by
      cases hm : dget rkvs "menu" with
      | none => rw [hm] at heq; cases heq
      | some x => rw [hm] at heq; cases heq; rfl
    split at h
    · exact absurd h (by simp)
    case h_2 n heq2 =>
      split at h
      · exact absurd h (by simp)
      case isFalse hbound =>
        push_neg at hbound
        split at h
        case h_2 => exact absurd h (by simp)
        case h_3 => exact absurd h (by simp)
        case h_4 => exact absurd h (by simp)
        case h_1 xs =>
          have hlen : xs.length = n := by
            simpa [pyLen] using heq2
          split at h
          · exact absurd h (by simp)
          case h_2 item heq3 =>
            split at h
            case h_2 => exact absurd h (by simp)
            case h_1 ikvs =>
              refine ⟨xs, ikvs, hmenu, hbound.1, ?_, ?_, ?_⟩
              · rw [hlen]
                exact hbound.2
              · exact heq3
              · simpa using h.symm

theorem isEmpty_false_of_dget (d : List (String × PyVal)) (k : String)
    (v : PyVal) (h : dget d k = Option.some v) : d.isEmpty = false := by
  cases d with
  | nil => simp [dget] at h
  | cons p rest => rfl

/-- Forward evaluation of a well-shaped `try` block. -/
theorem updateTryBlock_eval (data : Store) (slug : String)
    (rkvs : List (String × PyVal)) (idx : Int) (vf : List (String × PyVal))
    (xs : List PyVal) (ikvs : List (String × PyVal))
    (hmenu : dget rkvs "menu" = Option.some (PyVal.list xs))
    (h0 : 0 ≤ idx) (h1 : idx < (xs.length : Int))
    (hi : xs.get? idx.toNat = Option.some (PyVal.dict ikvs)) :
    updateTryBlock data slug rkvs idx vf = Except.ok (true, dset data slug
      (PyVal.dict (dset rkvs "menu"
        (PyVal.list (xs.set idx.toNat (PyVal.dict (pyUpdate ikvs vf))))))) := by
  simp only [updateTryBlock, pySubscriptStr, hmenu, pyLen]
  rw [if_neg (by push_neg; exact ⟨h0, h1⟩)]
  rw [hi]

/-- Forward evaluation of a well-shaped `update_menu_item` call. -/
theorem update_menu_item_eval (data : Store) (slug : String) (idx : Int)
    (p : List (String × PyVal)) (vf rkvs : List (String × PyVal))
    (xs : List PyVal) (ikvs : List (String × PyVal))
    (hcvf : computeValidFields p [] = Option.some vf)
    (hne : vf.isEmpty = false)
    (hr : dget data slug = Option.some (PyVal.dict rkvs))
    (hmenu : dget rkvs "menu" = Option.some (PyVal.list xs))
    (h0 : 0 ≤ idx) (h1 : idx < (xs.length : Int))
    (hi : xs.get? idx.toNat = Option.some (PyVal.dict ikvs)) :
    update_menu_item data slug idx p = Except.ok (true, dset data slug
      (PyVal.dict (dset rkvs "menu"
        (PyVal.list (xs.set idx.toNat (PyVal.dict (pyUpdate ikvs vf))))))) := by
  have hre : rkvs.isEmpty = false := isEmpty_false_of_dget rkvs "menu" _ hmenu
  have hdh : dhas rkvs "menu" = true :=
    dhas_of_dget_some rkvs "menu" _ hmenu
  simp only [update_menu_item, hcvf, hne, hr, pyTruthy, hre, pyInOp, hdh,
    Bool.not_false, if_false, Bool.not_true]
  rw [updateTryBlock_eval data slug rkvs idx vf xs ikvs hmenu h0 h1 hi]
  simp

/-- Inversion for a successful `update_menu_item`: the store state and
patch must have had this exact shape, and the new store is the old one
with the indexed item merged with the valid fields. -/
theorem update_menu_item_ok_true (data : Store) (slug : String) (idx : Int)
    (p : List (String × PyVal)) (data' : Store)
    (h : update_menu_item data slug idx p = Except.ok (true, data')) :
    ∃ vf rkvs xs ikvs,
      computeValidFields p [] = Option.some vf ∧ vf ≠ [] ∧
      dget data slug = Option.some (PyVal.dict rkvs) ∧
      dget rkvs "menu" = Option.some (PyVal.list xs) ∧
      0 ≤ idx ∧ idx < (xs.length : Int) ∧
      xs.get? idx.toNat = Option.some (PyVal.dict ikvs) ∧
      data' = dset data slug (PyVal.dict (dset rkvs "menu"
        (PyVal.list (xs.set idx.toNat (PyVal.dict (pyUpdate ikvs vf)))))) := by
  simp only [update_menu_item] at h
  split at h
  · exact absurd h (by simp)
  case h_2 vf hcvf =>
    split at h
    · exact absurd h (by simp)
    case isFalse hne =>
      split at h
      · exact absurd h (by simp)
      case h_2 rest hrest =>
        split at h
        · exact absurd h (by simp)
        case isFalse htr =>
          split at h
          · exact absurd h (by simp)
          case h_2 hm hin =>
            split at h
            · exact absurd h (by simp)
            case isFalse hhm =>
              split at h
              case h_2 => exact absurd h (by simp)
              case h_1 rkvs =>
                split at h
                case h_1 => exact absurd h (by simp)
                case h_2 => exact absurd h (by simp)
                case h_3 => exact absurd h (by simp)
                case h_4 r heq =>
                  simp only [Except.ok.injEq] at h
                  subst h
                  obtain ⟨xs, ikvs, hmenu, hb0, hb1, hi, hd⟩ :=
                    updateTryBlock_ok_true data slug rkvs idx vf data' heq
                  exact ⟨vf, rkvs, xs, ikvs, hcvf, by simpa using hne, hrest,
                    hmenu, hb0, hb1, hi, hd⟩

/-- C6: a successful `updateMenuItem(s, i, p)` rewrites exactly the
sanitized valid subset of `p` onto item `i` (every valid field gets its
sanitized value, every other field of the item is untouched), leaves
every other item and every other slug unchanged, and re-applying the
same patch to the resulting store succeeds and leaves the store
identical (idempotent re-application). -/
theorem c6_update_merge_idempotent (data : Store) (slug : String) (idx : Int)
    (p : List (String × PyVal)) (data' : Store)
    (h : update_menu_item data slug idx p = Except.ok (true, data')) :
    ∃ vf rkvs xs ikvs,
      computeValidFields p [] = Option.some vf ∧
      dget data slug = Option.some (PyVal.dict rkvs) ∧
      dget rkvs "menu" = Option.some (PyVal.list xs) ∧
      xs.get? idx.toNat = Option.some (PyVal.dict ikvs) ∧
      data' = dset data slug (PyVal.dict (dset rkvs "menu"
        (PyVal.list (xs.set idx.toNat (PyVal.dict (pyUpdate ikvs vf)))))) ∧
      (∀ k v, (k, v) ∈ vf → dget (pyUpdate ikvs vf) k = Option.some v) ∧
      (∀ k, k ∉ dkeys vf → dget (pyUpdate ikvs vf) k = dget ikvs k) ∧
      (∀ s, s ≠ slug → dget data' s = dget data s) ∧
      (∀ j, j ≠ idx.toNat →
        (xs.set idx.toNat (PyVal.dict (pyUpdate ikvs vf))).get? j = xs.get? j) ∧
      update_menu_item data' slug idx p = Except.ok (true, data') := by
  obtain ⟨vf, rkvs, xs, ikvs, hcvf, hvne, hr, hmenu, h0, h1, hi, hd⟩ :=
    update_menu_item_ok_true data slug idx p data' h
  have hnd : (dkeys vf).Nodup := cvf_nodup p [] vf (by simp [dkeys]) hcvf
  have hlt : idx.toNat < xs.length := by omega
  refine ⟨vf, rkvs, xs, ikvs, hcvf, hr, hmenu, hi, hd, ?_, ?_, ?_, ?_, ?_⟩
  · intro k v hkv
    exact dget_pyUpdate_mem vf k v hnd hkv ikvs
  · intro k hk
    exact dget_pyUpdate_not_mem vf k hk ikvs
  · intro s hs
    rw [hd]
    exact dget_dset_ne data slug s _ hs
  · intro j hj
    exact List.get?_set_ne _ xs (Ne.symm hj)
  · have hupd : pyUpdate (pyUpdate ikvs vf) vf = pyUpdate ikvs vf :=
      pyUpdate_self_of_dget vf (pyUpdate ikvs vf)
        (fun q hq => dget_pyUpdate_mem vf q.1 q.2 hnd (by simpa using hq) ikvs)
    have hr' : dget data' slug = Option.some (PyVal.dict (dset rkvs "menu"
        (PyVal.list (xs.set idx.toNat (PyVal.dict (pyUpdate ikvs vf)))))) := by
      rw [hd]
      exact dget_dset_self data slug _
    have hm' : dget (dset rkvs "menu"
        (PyVal.list (xs.set idx.toNat (PyVal.dict (pyUpdate ikvs vf))))) "menu" =
        Option.some (PyVal.list (xs.set idx.toNat (PyVal.dict (pyUpdate ikvs vf)))) :=
      dget_dset_self rkvs "menu" _
    have hi' : (xs.set idx.toNat (PyVal.dict (pyUpdate ikvs vf))).get? idx.toNat =
        Option.some (PyVal.dict (pyUpdate ikvs vf)) :=
      List.get?_set_eq_of_lt _ hlt
    have heval := update_menu_item_eval data' slug idx p vf
      (dset rkvs "menu" (PyVal.list (xs.set idx.toNat (PyVal.dict (pyUpdate ikvs vf)))))
      (xs.set idx.toNat (PyVal.dict (pyUpdate ikvs vf)))
      (pyUpdate ikvs vf) hcvf (by simpa using hvne) hr' hm'
      h0 (by rw [List.length_set]; exact h1) hi'
    rw [heval, hupd, List.set_set]
    rw [dset_dget_eq _ _ _ hm', dset_dget_eq _ _ _ hr']

/-! ### Concrete fixtures shared by witnesses and counterexamples -/

/-- A fully populated stored menu item, as `create_restaurant` writes it. -/
def sampleItem : PyVal := PyVal.dict
  [("name", PyVal.str "Karahi"), ("name_ur", PyVal.str ""),
   ("price", PyVal.float ⟨500, 1⟩), ("image_url", PyVal.str ""),
   ("category", PyVal.str "Main Course"), ("is_available", PyVal.bool true),
   ("is_chefs_special", PyVal.bool false)]

/-- A one-restaurant store with a one-item menu. -/
def sampleStore : Store :=
  [("karachi-bbq", PyVal.dict
    [("name", PyVal.str "Karachi BBQ"), ("menu", PyVal.list [sampleItem])])]

/-! ### Claim theorems -/

/-- C1 (code bug): when the persisted document exists but is malformed,
`load_data` does not quarantine it and return the empty mapping — the
backup-name expression `str(int(os.time()))` evaluates `os.time`, which
the `os` module does not define, so the call raises `AttributeError`
to the caller before any file is moved. -/
theorem c1_load_malformed_raises :
    load_data FileState.malformed = Except.error PyErr.attributeError := rfl

/-- C8: for any slug matching the slug pattern but absent from the
store, `update_restaurant` succeeds and inserts the given record as-is:
an unsanitized upsert that bypasses `create_restaurant`'s sanitization
and uniqueness checks (it succeeds precisely where creation would be
required, and stores the untouched value). -/
theorem c8_upsert_unsanitized (data : Store) (slug : String) (v : PyVal)
    (hs : validSlug slug = true) (habs : dget data slug = Option.none) :
    update_restaurant data slug v = (true, dset data slug v) ∧
    dget (dset data slug v) slug = Option.some v ∧
    get_restaurant data slug = Option.none := by
  refine ⟨?_, dget_dset_self data slug v, habs⟩
  simp [update_restaurant, hs]

/-- Witness for C8 at a concrete fresh slug and a raw non-dict record. -/
theorem c8_witness :
    update_restaurant sampleStore "fresh-slug" (PyVal.int 7) =
      (true, dset sampleStore "fresh-slug" (PyVal.int 7)) ∧
    dget (dset sampleStore "fresh-slug" (PyVal.int 7)) "fresh-slug" =
      Option.some (PyVal.int 7) ∧
    get_restaurant sampleStore "fresh-slug" = Option.none :=
  c8_upsert_unsanitized sampleStore "fresh-slug" (PyVal.int 7) (by decide) rfl

/-- A store whose single menu item starts out unavailable. -/
def c4Store : Store :=
  [("cafe", PyVal.dict
    [("name", PyVal.str "Cafe"),
     ("menu", PyVal.list [PyVal.dict
       [("name", PyVal.str "Chai"), ("is_available", PyVal.bool false)]])])]

/-- C4 counterexample: inside `update_menu_item` the string `"no"` for
`is_available` does not coerce to false as the claim states — `bool("no")`
is truthy, so the stored flag flips to true. -/
theorem c4_counterexample :
    update_menu_item c4Store "cafe" 0 [("is_available", PyVal.str "no")] =
      Except.ok (true, [("cafe", PyVal.dict
        [("name", PyVal.str "Cafe"),
         ("menu", PyVal.list [PyVal.dict
           [("name", PyVal.str "Chai"), ("is_available", PyVal.bool true)]])])]) :=
  rfl

/-- C4 (amended): the `"1"`/`"true"`/`"yes"` table lives in the API
layer — `api_update_item` lowercases a string-valued `is_available` and
compares against that tuple before calling `update_menu_item` — while
`update_menu_item` itself coerces boolean fields with Python `bool()`,
so every non-empty string (including `"no"` and `"false"`) becomes true
and only the empty string becomes false. -/
theorem c4_boolean_coercion_amended (s : String) :
    api_coerce_fields [("is_available", PyVal.str s)] =
      [("is_available", PyVal.bool (["1", "true", "yes"].contains (pyLower s)))] ∧
    computeValidFields [("is_available", PyVal.str s)] [] =
      Option.some [("is_available", PyVal.bool (s != ""))] :=
  ⟨rfl, rfl⟩

/-- C3 counterexample: at the claimed boundary, a price of `999999.99`
is not accepted — the code rejects any price strictly above `999999`,
so the patch fails and the store is unchanged. -/
theorem c3_counterexample :
    update_menu_item sampleStore "karachi-bbq" 0
      [("price", PyVal.str "999999.99")] = Except.ok (false, sampleStore) := rfl

/-- C3 (amended): a price patch whose value fails `float` conversion
(e.g. `"abc"`) or converts outside `[0, 999999]` is rejected whole and
leaves the store unchanged; at the boundary `999999` is accepted (and
stored rounded to 2 decimal places) while both `999999.99` and
`1000000` are rejected. -/
theorem c3_price_validation_amended :
    (∀ (data : Store) (slug : String) (idx : Int) (v : PyVal),
      (∀ f, pyFloat v = Except.ok f →
        (pfLt f (pfOfInt 0) || pfLt (pfOfInt 999999) f) = true) →
      update_menu_item data slug idx [("price", v)] = Except.ok (false, data)) ∧
    update_menu_item sampleStore "karachi-bbq" 0 [("price", PyVal.str "abc")] =
      Except.ok (false, sampleStore) ∧
    update_menu_item sampleStore "karachi-bbq" 0 [("price", PyVal.int 1000000)] =
      Except.ok (false, sampleStore) ∧
    update_menu_item sampleStore "karachi-bbq" 0 [("price", PyVal.str "999999.99")] =
      Except.ok (false, sampleStore) ∧
    update_menu_item sampleStore "karachi-bbq" 0 [("price", PyVal.int 999999)] =
      Except.ok (true, [("karachi-bbq", PyVal.dict
        [("name", PyVal.str "Karachi BBQ"),
         ("menu", PyVal.list [PyVal.dict
           [("name", PyVal.str "Karahi"), ("name_ur", PyVal.str ""),
            ("price", PyVal.float ⟨99999900, 100⟩), ("image_url", PyVal.str ""),
            ("category", PyVal.str "Main Course"), ("is_available", PyVal.bool true),
            ("is_chefs_special", PyVal.bool false)]])])]) := by
  refine ⟨?_, rfl, rfl, rfl, rfl⟩
  intro data slug idx v hbad
  have hcvf : computeValidFields [("price", v)] [] = Option.none := by
    simp only [computeValidFields]
    cases hpf : pyFloat v with
    | error e => simp [hpf, VALID_ITEM_FIELDS]
    | ok f => simp [hpf, hbad f hpf, VALID_ITEM_FIELDS]
  simp [update_menu_item, hcvf]

/-- Witness for the universally quantified part of the amended C3. -/
theorem c3_witness :
    update_menu_item sampleStore "karachi-bbq" 0 [("price", PyVal.int 1000001)] =
      Except.ok (false, sampleStore) :=
  c3_price_validation_amended.1 sampleStore "karachi-bbq" 0 (PyVal.int 1000001)
    (fun f hf => by cases hf; decide)

/-- The patch used by the C6 witness. -/
def c6Patch : List (String × PyVal) :=
  [("price", PyVal.int 100), ("name", PyVal.str " Seekh Kabab ")]

/-- The store produced by applying `c6Patch` to `sampleStore`. -/
def c6After : Store :=
  [("karachi-bbq", PyVal.dict
    [("name", PyVal.str "Karachi BBQ"),
     ("menu", PyVal.list [PyVal.dict
       [("name", PyVal.str "Seekh Kabab"), ("name_ur", PyVal.str ""),
        ("price", PyVal.float ⟨10000, 100⟩), ("image_url", PyVal.str ""),
        ("category", PyVal.str "Main Course"), ("is_available", PyVal.bool true),
        ("is_chefs_special", PyVal.bool false)]])])]

/-- Witness for C6 at a concrete store and two-field patch. -/
theorem c6_witness :
    ∃ vf rkvs xs ikvs,
      computeValidFields c6Patch [] = Option.some vf ∧
      dget sampleStore "karachi-bbq" = Option.some (PyVal.dict rkvs) ∧
      dget rkvs "menu" = Option.some (PyVal.list xs) ∧
      xs.get? (Int.toNat 0) = Option.some (PyVal.dict ikvs) ∧
      c6After = dset sampleStore "karachi-bbq" (PyVal.dict (dset rkvs "menu"
        (PyVal.list (xs.set (Int.toNat 0) (PyVal.dict (pyUpdate ikvs vf)))))) ∧
      (∀ k v, (k, v) ∈ vf → dget (pyUpdate ikvs vf) k = Option.some v) ∧
      (∀ k, k ∉ dkeys vf → dget (pyUpdate ikvs vf) k = dget ikvs k) ∧
      (∀ s, s ≠ "karachi-bbq" → dget c6After s = dget sampleStore s) ∧
      (∀ j, j ≠ Int.toNat 0 →
        (xs.set (Int.toNat 0) (PyVal.dict (pyUpdate ikvs vf))).get? j = xs.get? j) ∧
      update_menu_item c6After "karachi-bbq" 0 c6Patch = Except.ok (true, c6After) :=
  c6_update_merge_idempotent sampleStore "karachi-bbq" 0 c6Patch c6After rfl

namespace Analytics

theorem mem_insertDesc (p x : Option Int × Nat) (l : List (Option Int × Nat))
    (h : x ∈ insertDesc p l) : x = p ∨ x ∈ l := by
  induction l with
  | nil => simpa [insertDesc] using h
  | cons q r ih =>
      simp only [insertDesc] at h
      split at h
      · simpa using h
      · rcases List.mem_cons.mp h with h' | h'
        · exact Or.inr (h' ▸ List.mem_cons_self q r)
        · rcases ih h' with h'' | h''
          · exact Or.inl h''
          · exact Or.inr (List.mem_cons_of_mem _ h'')

theorem pairwise_insertDesc (p : Option Int × Nat) (l : List (Option Int × Nat))
    (h : List.Pairwise (fun a b => b.2 ≤ a.2) l) :
    List.Pairwise (fun a b => b.2 ≤ a.2) (insertDesc p l) := by
  induction l with
  | nil => simp [insertDesc]
  | cons q r ih =>
      simp only [insertDesc]
      rcases h with _ | ⟨hq, hr⟩
      split
      case isTrue hlt =>
        refine List.Pairwise.cons ?_ (List.Pairwise.cons hq hr)
        intro x hx
        rcases List.mem_cons.mp hx with h' | h'
        · exact h' ▸ Nat.le_of_lt hlt
        · exact Nat.le_trans (hq x h') (Nat.le_of_lt hlt)
      case isFalse hge =>
        refine List.Pairwise.cons ?_ (ih hr)
        intro x hx
        rcases mem_insertDesc p x r hx with h' | h'
        · exact h' ▸ Nat.le_of_not_lt hge
        · exact hq x h'

theorem pairwise_sortByCountDesc (l : List (Option Int × Nat)) :
    List.Pairwise (fun a b => b.2 ≤ a.2) (sortByCountDesc l) := by
  induction l with
  | nil => simp [sortByCountDesc]
  | cons p r ih => exact pairwise_insertDesc p _ ih

end Analytics

/-- The January 2024 event table of the C7 example: 3 scans and 5
clicks (2 on item 0, 3 on item 1), all timestamped inside the month. -/
def c7Events : List Analytics.Event :=
  [⟨"r", "scan", Option.none, ⟨2024, 1, 1, 0, 0, 0⟩⟩,
   ⟨"r", "scan", Option.none, ⟨2024, 1, 10, 12, 0, 0⟩⟩,
   ⟨"r", "scan", Option.none, ⟨2024, 1, 31, 23, 59, 59⟩⟩,
   ⟨"r", "click", Option.some 0, ⟨2024, 1, 5, 0, 0, 0⟩⟩,
   ⟨"r", "click", Option.some 0, ⟨2024, 1, 6, 0, 0, 0⟩⟩,
   ⟨"r", "click", Option.some 1, ⟨2024, 1, 7, 0, 0, 0⟩⟩,
   ⟨"r", "click", Option.some 1, ⟨2024, 1, 8, 0, 0, 0⟩⟩,
   ⟨"r", "click", Option.some 1, ⟨2024, 1, 9, 0, 0, 0⟩⟩]

/-- C7: `monthlySummary` counts scans and clicks over the half-open
window from the first instant of the month to the first instant of the
next month, December rolling over to January of the next year; the top
items are at most 10 groups in descending click-count order; and the
concrete example returns scans 3, clicks 5, top items
`[(index 1, 3), (index 0, 2)]`. -/
theorem c7_monthly_summary :
    (∀ (evs : List Analytics.Event) (slug : String) (y m : Nat),
      (Analytics.get_monthly_summary evs slug y m).scans =
        evs.countP (Analytics.inWindow slug "scan"
          (Analytics.monthStart y m) (Analytics.monthEnd y m)) ∧
      (Analytics.get_monthly_summary evs slug y m).clicks =
        (evs.filter (Analytics.inWindow slug "click"
          (Analytics.monthStart y m) (Analytics.monthEnd y m))).length ∧
      List.Pairwise (fun a b => b.2 ≤ a.2)
        (Analytics.get_monthly_summary evs slug y m).top_items ∧
      (Analytics.get_monthly_summary evs slug y m).top_items.length ≤ 10) ∧
    (∀ y : Nat, Analytics.monthEnd y 12 = ⟨y + 1, 1, 1, 0, 0, 0⟩) ∧
    (∀ (y : Nat) (m : Nat), m ≠ 12 → Analytics.monthEnd y m = ⟨y, m + 1, 1, 0, 0, 0⟩) ∧
    Analytics.get_monthly_summary c7Events "r" 2024 1 =
      ⟨2024, 1, 3, 5, [(Option.some 1, 3), (Option.some 0, 2)]⟩ := by
  refine ⟨?_, ?_, ?_, rfl⟩
  · intro evs slug y m
    refine ⟨rfl, rfl, ?_, ?_⟩
    · exact List.Pairwise.sublist (List.take_sublist _ _)
        (Analytics.pairwise_sortByCountDesc _)
    · exact List.length_take_le _ _
  · intro y
    rfl
  · intro y m hm
    simp [Analytics.monthEnd, hm]

/-- The event table of C10: three clicks with no item index and two on
item 0, all in January 2024. -/
def c10Events : List Analytics.Event :=
  [⟨"r", "click", Option.none, ⟨2024, 1, 5, 0, 0, 0⟩⟩,
   ⟨"r", "click", Option.none, ⟨2024, 1, 6, 0, 0, 0⟩⟩,
   ⟨"r", "click", Option.none, ⟨2024, 1, 7, 0, 0, 0⟩⟩,
   ⟨"r", "click", Option.some 0, ⟨2024, 1, 8, 0, 0, 0⟩⟩,
   ⟨"r", "click", Option.some 0, ⟨2024, 1, 9, 0, 0, 0⟩⟩]

/-- C10: clicks recorded with no item index form a single null-index
group in both `monthlySummary` and `topItems`, occupying a result slot
alongside genuine indices (here the top slot, with its own count). -/
theorem c10_null_index_group :
    (Analytics.get_monthly_summary c10Events "r" 2024 1).top_items =
      [(Option.none, 3), (Option.some 0, 2)] ∧
    Analytics.get_top_items c10Events "r" ⟨2024, 1, 1, 0, 0, 0⟩ =
      [(Option.none, 3), (Option.some 0, 2)] :=
  ⟨rfl, rfl⟩

/-- The draft of the C2 counterexample: one menu item with price `-5`. -/
def c2Draft : List (String × PyVal) :=
  [("name", PyVal.str "N"),
   ("menu", PyVal.list [PyVal.dict
     [("name", PyVal.str "x"), ("price", PyVal.int (-5))]])]

/-- The record `create_restaurant` stores for `c2Draft`. -/
def c2Record : PyVal := PyVal.dict
  [("name", PyVal.str "N"), ("name_ur", PyVal.str ""),
   ("whatsapp", PyVal.str ""),
   ("menu", PyVal.list [PyVal.dict
     [("name", PyVal.str "x"), ("name_ur", PyVal.str ""),
      ("price", PyVal.float ⟨-5, 1⟩), ("image_url", PyVal.str ""),
      ("category", PyVal.str "Main Course"), ("is_available", PyVal.bool true),
      ("is_chefs_special", PyVal.bool false)]]),
   ("theme", PyVal.str "default"), ("created_at", PyVal.float ⟨0, 1⟩)]

/-- C2 counterexample: a draft item with price `-5` creates
successfully, and the round-tripped record stores the price `-5 < 0` —
so menu items of a created record are not always well-formed in the
claimed sense (price may be negative). -/
theorem c2_counterexample :
    create_restaurant [] "negprice" c2Draft "default" ⟨0, 1⟩ =
      Except.ok (true, [("negprice", c2Record)]) ∧
    get_restaurant [("negprice", c2Record)] "negprice" = Option.some c2Record ∧
    pfLt ⟨-5, 1⟩ (pfOfInt 0) = true :=
  ⟨rfl, rfl, rfl⟩

/-- Every item emitted by `buildMenu` is a dict carrying exactly the
seven item fields, with a float price and a title-cased category. -/
theorem buildMenu_item_shape (elems items : List PyVal)
    (h : buildMenu elems = Except.ok items) :
    ∀ it ∈ items, ∃ ikvs, it = PyVal.dict ikvs ∧
      dkeys ikvs = VALID_ITEM_FIELDS ∧
      (∃ f, dget ikvs "price" = Option.some (PyVal.float f)) ∧
      (∃ t, dget ikvs "category" = Option.some (PyVal.str (pyTitle t))) := by
  induction elems generalizing items with
  | nil =>
      simp only [buildMenu, Except.ok.injEq] at h
      subst h
      intro it hit
      simp at hit
  | cons v rest ih =>
      cases v with
      | none => exact ih items (by simpa only [buildMenu] using h)
      | bool b => exact ih items (by simpa only [buildMenu] using h)
      | int n => exact ih items (by simpa only [buildMenu] using h)
      | float f => exact ih items (by simpa only [buildMenu] using h)
      | str s => exact ih items (by simpa only [buildMenu] using h)
      | list xs => exact ih items (by simpa only [buildMenu] using h)
      | dict ikvs0 =>
          simp only [buildMenu] at h
          by_cases hk : dhas ikvs0 "name" = true
          · rw [if_pos hk] at h
            split at h
            · cases h
            next item hsan =>
              split at h
              · cases h
              next tail htail =>
                simp only [Except.ok.injEq] at h
                subst h
                intro it hit
                rcases List.mem_cons.mp hit with h' | h'
                · subst h'
                  simp only [sanitizeMenuItem] at hsan
                  split at hsan
                  · cases hsan
                  next price hpf =>
                    simp only [Except.ok.injEq] at hsan
                    refine ⟨_, hsan.symm, rfl, ⟨price, rfl⟩, ?_⟩
                    by_cases hc :
                        (pyTitle (pyStrip (pyStr
                          (dgetD ikvs0 "category" (PyVal.str "Main Course")))) == "") = true
                    · refine ⟨"Main Course", ?_⟩
                      have : dget
                          [("name", PyVal.str (pyStrip (pyStr (dgetD ikvs0 "name" (PyVal.str ""))))),
                           ("name_ur", PyVal.str (pyStrip (pyStr (dgetD ikvs0 "name_ur" (PyVal.str ""))))),
                           ("price", PyVal.float price),
                           ("image_url", PyVal.str (pyStrip (pyStr (dgetD ikvs0 "image_url" (PyVal.str ""))))),
                           ("category", PyVal.str
                             (if (pyTitle (pyStrip (pyStr (dgetD ikvs0 "category" (PyVal.str "Main Course")))) == "") = true
                              then "Main Course"
                              else pyTitle (pyStrip (pyStr (dgetD ikvs0 "category" (PyVal.str "Main Course")))))),
                           ("is_available", PyVal.bool (pyTruthy (dgetD ikvs0 "is_available" (PyVal.bool true)))),
                           ("is_chefs_special", PyVal.bool (pyTruthy (dgetD ikvs0 "is_chefs_special" (PyVal.bool false))))]
                          "category" = Option.some (PyVal.str
                            (if (pyTitle (pyStrip (pyStr (dgetD ikvs0 "category" (PyVal.str "Main Course")))) == "") = true
                             then "Main Course"
                             else pyTitle (pyStrip (pyStr (dgetD ikvs0 "category" (PyVal.str "Main Course")))))) := rfl
                      rw [this, if_pos hc]
                      rfl
                    · refine ⟨pyStrip (pyStr
                        (dgetD ikvs0 "category" (PyVal.str "Main Course"))), ?_⟩
                      have : dget
                          [("name", PyVal.str (pyStrip (pyStr (dgetD ikvs0 "name" (PyVal.str ""))))),
                           ("name_ur", PyVal.str (pyStrip (pyStr (dgetD ikvs0 "name_ur" (PyVal.str ""))))),
                           ("price", PyVal.float price),
                           ("image_url", PyVal.str (pyStrip (pyStr (dgetD ikvs0 "image_url" (PyVal.str ""))))),
                           ("category", PyVal.str
                             (if (pyTitle (pyStrip (pyStr (dgetD ikvs0 "category" (PyVal.str "Main Course")))) == "") = true
                              then "Main Course"
                              else pyTitle (pyStrip (pyStr (dgetD ikvs0 "category" (PyVal.str "Main Course")))))),
                           ("is_available", PyVal.bool (pyTruthy (dgetD ikvs0 "is_available" (PyVal.bool true)))),
                           ("is_chefs_special", PyVal.bool (pyTruthy (dgetD ikvs0 "is_chefs_special" (PyVal.bool false))))]
                          "category" = Option.some (PyVal.str
                            (if (pyTitle (pyStrip (pyStr (dgetD ikvs0 "category" (PyVal.str "Main Course")))) == "") = true
                             then "Main Course"
                             else pyTitle (pyStrip (pyStr (dgetD ikvs0 "category" (PyVal.str "Main Course")))))) := rfl
                      rw [this, if_neg hc]
                · exact ih tail htail it h'
          · rw [if_neg hk] at h
            exact ih items h

/-- Inversion for a successful `create_restaurant`: the stored record
is the sanitized literal built from the draft, with the menu produced
by `buildMenu`. -/
theorem create_ok_inv (data : Store) (slug : String)
    (restaurant : List (String × PyVal)) (dtheme : String) (now : PyFloat)
    (st : Store)
    (h : create_restaurant data slug restaurant dtheme now = Except.ok (true, st)) :
    ∃ elems items,
      iterElems (dgetD restaurant "menu" (PyVal.list [])) = Except.ok elems ∧
      buildMenu elems = Except.ok items ∧
      st = dset data slug (PyVal.dict
        [("name", PyVal.str
            (if pyStrip (pyStr (dgetD restaurant "name" (PyVal.str slug))) == ""
             then slug
             else pyStrip (pyStr (dgetD restaurant "name" (PyVal.str slug))))),
         ("name_ur", PyVal.str (pyStrip (pyStr (dgetD restaurant "name_ur" (PyVal.str ""))))),
         ("whatsapp", PyVal.str (pyStrip (pyStr (dgetD restaurant "whatsapp" (PyVal.str ""))))),
         ("menu", PyVal.list items),
         ("theme", PyVal.str (if VALID_THEMES.contains dtheme then dtheme else "default")),
         ("created_at", PyVal.float now)]) := by
  simp only [create_restaurant] at h
  split at h
  · exact absurd h (by simp)
  case isFalse hs =>
    split at h
    · exact absurd h (by simp)
    case isFalse hfresh =>
      split at h
      · exact absurd h (by simp)
      case h_2 elems heq1 =>
        split at h
        · exact absurd h (by simp)
        case h_2 items heq2 =>
          simp only [Except.ok.injEq, Prod.mk.injEq, true_and] at h
          exact ⟨elems, items, heq1, heq2, h.symm⟩

/-- C2 (amended): after any successful `createRestaurant`, the
round-tripped record's menu items all carry exactly the seven required
fields, with a float price and a title-cased category; the price is the
unchecked `float` of the draft's price, so it is not guaranteed
non-negative (see the counterexample). -/
theorem c2_create_roundtrip_amended (data : Store) (slug : String)
    (restaurant : List (String × PyVal)) (dtheme : String) (now : PyFloat)
    (st : Store)
    (h : create_restaurant data slug restaurant dtheme now = Except.ok (true, st)) :
    ∃ rkvs items, get_restaurant st slug = Option.some (PyVal.dict rkvs) ∧
      dget rkvs "menu" = Option.some (PyVal.list items) ∧
      ∀ it ∈ items, ∃ ikvs, it = PyVal.dict ikvs ∧
        dkeys ikvs = VALID_ITEM_FIELDS ∧
        (∃ f, dget ikvs "price" = Option.some (PyVal.float f)) ∧
        (∃ t, dget ikvs "category" = Option.some (PyVal.str (pyTitle t))) := by
  obtain ⟨elems, items, heq1, heq2, hst⟩ :=
    create_ok_inv data slug restaurant dtheme now st h
  subst hst
  exact ⟨_, items, dget_dset_self data slug _, rfl,
    buildMenu_item_shape elems items heq2⟩

/-- The draft of the C2 witness: untrimmed name, a lowercase category,
plus a malformed menu entry. -/
def c2wDraft : List (String × PyVal) :=
  [("name", PyVal.str "  Cafe  "),
   ("menu", PyVal.list
     [PyVal.dict [("name", PyVal.str "x"), ("category", PyVal.str "desi food")],
      PyVal.str "junk"])]

/-- The store created from `c2wDraft`. -/
def c2wStore : Store :=
  [("cafe-w", PyVal.dict
    [("name", PyVal.str "Cafe"), ("name_ur", PyVal.str ""),
     ("whatsapp", PyVal.str ""),
     ("menu", PyVal.list [PyVal.dict
       [("name", PyVal.str "x"), ("name_ur", PyVal.str ""),
        ("price", PyVal.float ⟨0, 1⟩), ("image_url", PyVal.str ""),
        ("category", PyVal.str "Desi Food"), ("is_available", PyVal.bool true),
        ("is_chefs_special", PyVal.bool false)]]),
     ("theme", PyVal.str "default"), ("created_at", PyVal.float ⟨0, 1⟩)])]

/-- Witness for the amended C2 at a concrete creation. -/
theorem c2_witness :
    ∃ rkvs items, get_restaurant c2wStore "cafe-w" = Option.some (PyVal.dict rkvs) ∧
      dget rkvs "menu" = Option.some (PyVal.list items) ∧
      ∀ it ∈ items, ∃ ikvs, it = PyVal.dict ikvs ∧
        dkeys ikvs = VALID_ITEM_FIELDS ∧
        (∃ f, dget ikvs "price" = Option.some (PyVal.float f)) ∧
        (∃ t, dget ikvs "category" = Option.some (PyVal.str (pyTitle t))) :=
  c2_create_roundtrip_amended [] "cafe-w" c2wDraft "default" ⟨0, 1⟩ c2wStore rfl

/-- Dropping the entries that `create_restaurant` skips anyway does not
change the outcome of the menu-building loop. -/
theorem buildMenu_filter (elems : List PyVal) :
    buildMenu (elems.filter keepEntry) = buildMenu elems := by
  induction elems with
  | nil => rfl
  | cons v rest ih =>
      cases v with
      | dict ikvs =>
          by_cases hk : dhas ikvs "name" = true
          · have hkeep : keepEntry (PyVal.dict ikvs) = true := hk
            rw [List.filter_cons_of_pos hkeep]
            simp only [buildMenu, hk, if_true, ih]
          · have hkeep : keepEntry (PyVal.dict ikvs) = false := by
              simpa [keepEntry] using hk
            rw [List.filter_cons_of_neg (by simp [hkeep])]
            simp only [buildMenu, hk, if_false, ih]
            simp
      | none => rw [List.filter_cons_of_neg (by simp [keepEntry])]; exact ih
      | bool b => rw [List.filter_cons_of_neg (by simp [keepEntry])]; exact ih
      | int n => rw [List.filter_cons_of_neg (by simp [keepEntry])]; exact ih
      | float f => rw [List.filter_cons_of_neg (by simp [keepEntry])]; exact ih
      | str s => rw [List.filter_cons_of_neg (by simp [keepEntry])]; exact ih
      | list xs => rw [List.filter_cons_of_neg (by simp [keepEntry])]; exact ih

/-- When every kept entry sanitizes, the menu-building loop succeeds. -/
theorem buildMenu_ok (xs : List PyVal)
    (hsan : ∀ v ∈ xs, keepEntry v = true →
      ∃ ikvs item, v = PyVal.dict ikvs ∧ sanitizeMenuItem ikvs = Except.ok item) :
    ∃ items, buildMenu xs = Except.ok items := by
  induction xs with
  | nil => exact ⟨[], rfl⟩
  | cons v rest ih =>
      obtain ⟨items, hitems⟩ :=
        ih (fun w hw hk => hsan w (List.mem_cons_of_mem _ hw) hk)
      cases v with
      | dict ikvs =>
          by_cases hk : dhas ikvs "name" = true
          · obtain ⟨ikvs', item, hv, hitem⟩ :=
              hsan (PyVal.dict ikvs) (List.mem_cons_self _ _) hk
            obtain rfl : ikvs = ikvs' := by
              injection hv
            refine ⟨item :: items, ?_⟩
            simp only [buildMenu, hk, if_true, hitem, hitems]
          · refine ⟨items, ?_⟩
            simp only [buildMenu, hk, if_false]
            simpa using hitems
      | none => exact ⟨items, hitems⟩
      | bool b => exact ⟨items, hitems⟩
      | int n => exact ⟨items, hitems⟩
      | float f => exact ⟨items, hitems⟩
      | str s => exact ⟨items, hitems⟩
      | list ys => exact ⟨items, hitems⟩

/-- C5: menu entries that are not dicts or lack a `name` key are
silently dropped — creating from the draft equals creating from the
draft with those entries filtered out — and their presence never makes
the creation fail: with a valid fresh slug and every kept entry
sanitizing, the restaurant is created from the remaining items. -/
theorem c5_malformed_items_dropped (data : Store) (slug : String)
    (restaurant : List (String × PyVal)) (dtheme : String) (now : PyFloat)
    (xs : List PyVal)
    (hm : dget restaurant "menu" = Option.some (PyVal.list xs)) :
    create_restaurant data slug restaurant dtheme now =
      create_restaurant data slug
        (dset restaurant "menu" (PyVal.list (xs.filter keepEntry))) dtheme now ∧
    (validSlug slug = true → dhas data slug = false →
      (∀ v ∈ xs, keepEntry v = true →
        ∃ ikvs item, v = PyVal.dict ikvs ∧ sanitizeMenuItem ikvs = Except.ok item) →
      ∃ st, create_restaurant data slug restaurant dtheme now =
        Except.ok (true, st)) := by
  have hname : dget (dset restaurant "menu" (PyVal.list (xs.filter keepEntry)))
      "name" = dget restaurant "name" := dget_dset_ne _ _ _ _ (by decide)
  have hnameur : dget (dset restaurant "menu" (PyVal.list (xs.filter keepEntry)))
      "name_ur" = dget restaurant "name_ur" := dget_dset_ne _ _ _ _ (by decide)
  have hwa : dget (dset restaurant "menu" (PyVal.list (xs.filter keepEntry)))
      "whatsapp" = dget restaurant "whatsapp" := dget_dset_ne _ _ _ _ (by decide)
  have hmenu2 : dget (dset restaurant "menu" (PyVal.list (xs.filter keepEntry)))
      "menu" = Option.some (PyVal.list (xs.filter keepEntry)) :=
    dget_dset_self _ _ _
  constructor
  · simp only [create_restaurant, dgetD, hm, hname, hnameur, hwa, hmenu2,
      Option.getD, iterElems, buildMenu_filter]
  · intro hs hfresh hsan
    obtain ⟨items, hitems⟩ := buildMenu_ok xs hsan
    refine ⟨dset data slug (PyVal.dict
      [("name", PyVal.str
          (if pyStrip (pyStr (dgetD restaurant "name" (PyVal.str slug))) == ""
           then slug
           else pyStrip (pyStr (dgetD restaurant "name" (PyVal.str slug))))),
       ("name_ur", PyVal.str (pyStrip (pyStr (dgetD restaurant "name_ur" (PyVal.str ""))))),
       ("whatsapp", PyVal.str (pyStrip (pyStr (dgetD restaurant "whatsapp" (PyVal.str ""))))),
       ("menu", PyVal.list items),
       ("theme", PyVal.str (if VALID_THEMES.contains dtheme then dtheme else "default")),
       ("created_at", PyVal.float now)]), ?_⟩
    simp only [create_restaurant, hs, Bool.not_true, Bool.false_eq_true,
      if_false, hfresh, dgetD, hm, Option.getD, iterElems, hitems]

/-- The C5 witness menu: one good item and three malformed entries
(a string, an int, and a dict lacking `name`). -/
def c5Menu : List PyVal :=
  [PyVal.dict [("name", PyVal.str "Chai"), ("price", PyVal.int 50)],
   PyVal.str "junk", PyVal.int 3, PyVal.dict [("price", PyVal.int 9)]]

/-- The C5 witness draft. -/
def c5Draft : List (String × PyVal) :=
  [("name", PyVal.str "C5"), ("menu", PyVal.list c5Menu)]

/-- Witness for C5 at a concrete draft with three malformed entries. -/
theorem c5_witness :
    (create_restaurant [] "c-five" c5Draft "default" ⟨0, 1⟩ =
      create_restaurant [] "c-five"
        (dset c5Draft "menu" (PyVal.list (c5Menu.filter keepEntry)))
        "default" ⟨0, 1⟩) ∧
    (∃ st, create_restaurant [] "c-five" c5Draft "default" ⟨0, 1⟩ =
      Except.ok (true, st)) := by
  have base :=
    c5_malformed_items_dropped [] "c-five" c5Draft "default" ⟨0, 1⟩ c5Menu rfl
  refine ⟨base.1, base.2 (by decide) rfl ?_⟩
  intro v hv hk
  fin_cases hv
  · exact ⟨_, _, rfl, rfl⟩
  · exact absurd hk (by decide)
  · exact absurd hk (by decide)
  · exact absurd hk (by decide)

/-- A completed `track_click` call only ever writes the target record's
`analytics` key (and only the target slug's record): every other key of
the record, in particular `total_clicks` and `item_clicks`, is
untouched. -/
theorem track_click_keys_preserved (data : Store) (slug : String)
    (ii : Option PyVal) (b : Bool) (data' : Store)
    (rkvs : List (String × PyVal))
    (hr : dget data slug = Option.some (PyVal.dict rkvs))
    (h : track_click data slug ii = Except.ok (b, data')) :
    ∃ rkvs', dget data' slug = Option.some (PyVal.dict rkvs') ∧
      (∀ k, k ≠ "analytics" → dget rkvs' k = dget rkvs k) ∧
      (∀ s, s ≠ slug → dget data' s = dget data s) := by
  simp only [track_click, hr, pyInOp] at h
  split at h
  · simp only [Except.ok.injEq, Prod.mk.injEq] at h
    exact ⟨rkvs, h.2 ▸ hr, fun k _ => rfl, fun s _ => h.2 ▸ rfl⟩
  case isFalse htr =>
    have HX : ∀ k, k ≠ "analytics" →
        dget (if dhas rkvs "analytics" = true then rkvs
          else dset rkvs "analytics"
            (PyVal.dict [("total", PyVal.int 0), ("items", PyVal.dict [])])) k =
          dget rkvs k := by
      intro k hk
      split
      · rfl
      · exact dget_dset_ne _ _ _ _ hk
    split at h
    case h_1 hA => exact absurd h (by simp)
    case h_2 av hA =>
      split at h
      case h_2 => exact absurd h (by simp)
      case h_1 akvs =>
        split at h
        case h_1 => exact absurd h (by simp)
        case h_2 tv hT =>
          split at h
          case h_1 => exact absurd h (by simp)
          case h_2 tv1 hI =>
            split at h
            case h_1 =>
              simp only [Except.ok.injEq, Prod.mk.injEq] at h
              obtain ⟨hb, hd⟩ := h
              subst hd
              refine ⟨_, dget_dset_self _ _ _, ?_, ?_⟩
              · intro k hk
                rw [dget_dset_ne _ _ _ _ hk, HX k hk]
              · intro s hs
                exact dget_dset_ne _ _ _ _ hs
            case h_2 iv =>
              split at h
              case h_1 => exact absurd h (by simp)
              case h_2 itemsv hIt =>
                split at h
                case h_2 => exact absurd h (by simp)
                case h_1 im =>
                  split at h
                  case h_1 => exact absurd h (by simp)
                  case h_2 c1 hC =>
                    simp only [Except.ok.injEq, Prod.mk.injEq] at h
                    obtain ⟨hb, hd⟩ := h
                    subst hd
                    refine ⟨_, dget_dset_self _ _ _, ?_, ?_⟩
                    · intro k hk
                      rw [dget_dset_ne _ _ _ _ hk, HX k hk]
                    · intro s hs
                      exact dget_dset_ne _ _ _ _ hs

/-- Run a sequence of `track_click` calls against one slug, threading
the store (the claim's "clicks recorded only via track_click"). -/
def applyClicks (data : Store) (slug : String) :
    List (Option PyVal) → Except PyErr Store
  | [] => Except.ok data
  | ii :: rest =>
      match track_click data slug ii with
      | Except.error e => Except.error e
      | Except.ok r => applyClicks r.2 slug rest

/-- C9: `track_click` writes its counters under the record's
`analytics` key while `get_analytics` reads the distinct keys
`total_clicks` and `item_clicks`; so after any run of clicks recorded
only via `track_click` against a record carrying neither of those keys,
`get_analytics` still reports zero total clicks and an empty per-item
map — the two operations never observe each other's data. -/
theorem c9_analytics_key_mismatch (clicks : List (Option PyVal))
    (data data' : Store) (slug : String) (rkvs : List (String × PyVal))
    (hr : dget data slug = Option.some (PyVal.dict rkvs))
    (h1 : dget rkvs "total_clicks" = Option.none)
    (h2 : dget rkvs "item_clicks" = Option.none)
    (h : applyClicks data slug clicks = Except.ok data') :
    get_analytics data' slug = Except.ok (PyVal.dict
      [("total_clicks", PyVal.int 0), ("item_clicks", PyVal.dict [])]) := by
  induction clicks generalizing data rkvs with
  | nil =>
      simp only [applyClicks, Except.ok.injEq] at h
      subst h
      simp [get_analytics, hr, dgetD, h1, h2]
  | cons ii rest ih =>
      simp only [applyClicks] at h
      split at h
      · cases h
      case h_2 r heq =>
        obtain ⟨rkvs', hr', hkeys, _⟩ :=
          track_click_keys_preserved data slug ii r.1 r.2 rkvs hr
            (by rw [heq])
        exact ih r.2 rkvs' hr'
          (by rw [hkeys "total_clicks" (by decide), h1])
          (by rw [hkeys "item_clicks" (by decide), h2]) h

/-- The C9 witness store before any clicks. -/
def c9Before : Store := [("tea-house", PyVal.dict [("name", PyVal.str "T")])]

/-- The C9 witness store after one general click and two clicks on
item 2, all recorded via `track_click`. -/
def c9After : Store :=
  [("tea-house", PyVal.dict
    [("name", PyVal.str "T"),
     ("analytics", PyVal.dict
       [("total", PyVal.int 3),
        ("items", PyVal.dict [("2", PyVal.int 2)])])])]

/-- Witness for C9: three recorded clicks, yet `get_analytics` reports
zero clicks and an empty item map. -/
theorem c9_witness :
    get_analytics c9After "tea-house" = Except.ok (PyVal.dict
      [("total_clicks", PyVal.int 0), ("item_clicks", PyVal.dict [])]) :=
  c9_analytics_key_mismatch
    [Option.none, Option.some (PyVal.int 2), Option.some (PyVal.int 2)]
    c9Before c9After "tea-house" [("name", PyVal.str "T")] rfl rfl rfl rfl

/-- Witness for the non-December window-end clause of C7. -/
theorem c7_witness :
    Analytics.monthEnd 2024 6 = ⟨2024, 7, 1, 0, 0, 0⟩ :=
  c7_monthly_summary.2.2.1 2024 6 (by decide)
